import Mathlib

/-!
Shallow embedding of `src/utils/scripts/synthetic_capture.py`.

The script sweeps a simulated car around each traffic sign of a fixed list of
sign groups, commanding the car to poses on a circle around the sign and
saving camera frames to per-group directories.  Interaction with the outside
world (the Gazebo model-state services, the camera topic and the filesystem)
is modelled by an `Env` of oracle functions; a run produces a trace of
observable events (pose queries, pose commands, frame queries, saved files).
-/

namespace SyntheticCapture

/-- A model's world position (the `pose.position` fields the script reads). -/
structure Pos where
  x : ℝ
  y : ℝ
  z : ℝ

/-- `math.atan2 y x`, embedded as the argument of the complex number `x + y·i`
(both have range `(-π, π]` and agree on every quadrant and axis). -/
noncomputable def atan2 (y x : ℝ) : ℝ := Complex.arg ⟨x, y⟩

/-- `quat_from_yaw` from the script: the yaw-only quaternion
`(0.0, 0.0, math.sin(yaw * 0.5), math.cos(yaw * 0.5))`, as `(x, y, z, w)`. -/
noncomputable def quat_from_yaw (yaw : ℝ) : ℝ × ℝ × ℝ × ℝ :=
  (0, 0, Real.sin (yaw * 0.5), Real.cos (yaw * 0.5))

/-- The `ModelState` message the script fills in before calling
`/gazebo/set_model_state`. -/
structure ModelState where
  model_name : String
  reference_frame : String
  px : ℝ
  py : ℝ
  pz : ℝ
  ox : ℝ
  oy : ℝ
  oz : ℝ
  ow : ℝ

/-- The command-line configuration of the script (already parsed: heights and
angles as lists of reals, the angles in radians). -/
structure Config where
  car_model : String
  output_dir : String
  radius : ℝ
  heights : List ℝ
  angles : List ℝ
  shots_per_pose : Nat

/-- Outcomes of every interaction with the outside world.  Fallible calls are
indexed by the loop coordinates at which the script makes them
(group index, sign index, height index, angle index, shot number), so an
oracle can make any individual call succeed or fail. -/
structure Env where
  preflightOk : Bool
  getState : String → Option Pos
  setOk : Nat → Nat → Nat → Nat → Bool
  frameOk : Nat → Nat → Nat → Nat → Nat → Bool
  writeOk : Nat → Nat → Nat → Nat → Nat → Bool

/-- Observable events of a run, in order. -/
inductive Event where
  | getStateQuery (sign : String) (ok : Bool)
  | poseCmd (ms : ModelState) (ok : Bool)
  | frameQuery (ok : Bool)
  | fileSaved (label : String) (sign : String) (idx : Nat)

/-- Car position around the sign (lines 106-108 of the script):
`cx = sx + radius*cos(ang)`, `cy = sy + radius*sin(ang)`, `cz = sz + h`. -/
noncomputable def carPos (sp : Pos) (radius h ang : ℝ) : Pos :=
  ⟨sp.x + radius * Real.cos ang, sp.y + radius * Real.sin ang, sp.z + h⟩

/-- Yaw making the car face the sign (line 112):
`yaw = atan2(sy - cy, sx - cx)`. -/
noncomputable def carYaw (sp c : Pos) : ℝ := atan2 (sp.y - c.y) (sp.x - c.x)

/-- The full `ModelState` the script sends for a given sign position, height
and angle (lines 106-125). -/
noncomputable def carMS (cfg : Config) (sp : Pos) (h ang : ℝ) : ModelState :=
  ⟨cfg.car_model, "world",
   (carPos sp cfg.radius h ang).x,
   (carPos sp cfg.radius h ang).y,
   (carPos sp cfg.radius h ang).z,
   (quat_from_yaw (carYaw sp (carPos sp cfg.radius h ang))).1,
   (quat_from_yaw (carYaw sp (carPos sp cfg.radius h ang))).2.1,
   (quat_from_yaw (carYaw sp (carPos sp cfg.radius h ang))).2.2.1,
   (quat_from_yaw (carYaw sp (carPos sp cfg.radius h ang))).2.2.2⟩

/-- The `for s in range(shots_per_pose)` loop (lines 136-156).  Arguments:
current filename index `idx`, current shot number `s`, remaining shot count.
Returns the final index and the events of the loop.  A failed frame query
skips the shot with `idx` untouched; a successful frame query increments
`idx` and then attempts the disk write, which on failure skips the save with
the incremented `idx` kept. -/
def shotsLoop (env : Env) (label sign : String) (gi si hi ai : Nat) :
    Nat → Nat → Nat → Nat × List Event
  | idx, _, 0 => (idx, [])
  | idx, s, c + 1 =>
    if env.frameOk gi si hi ai s then
      if env.writeOk gi si hi ai s then
        let r := shotsLoop env label sign gi si hi ai (idx + 1) (s + 1) c
        (r.1, Event.frameQuery true :: Event.fileSaved label sign (idx + 1) :: r.2)
      else
        let r := shotsLoop env label sign gi si hi ai (idx + 1) (s + 1) c
        (r.1, Event.frameQuery true :: r.2)
    else
      let r := shotsLoop env label sign gi si hi ai idx (s + 1) c
      (r.1, Event.frameQuery false :: r.2)

/-- The `for ang in angles` loop (lines 103-156).  Emits the pose command for
each angle; when the command fails the pose is skipped (no settle wait, no
shots) and the sweep continues with the next angle. -/
noncomputable def anglesLoop (cfg : Config) (env : Env) (label sign : String) (sp : Pos)
    (gi si hi : Nat) (h : ℝ) : Nat → Nat → List ℝ → Nat × List Event
  | _, idx, [] => (idx, [])
  | ai, idx, ang :: rest =>
    if env.setOk gi si hi ai then
      let r1 := shotsLoop env label sign gi si hi ai idx 0 cfg.shots_per_pose
      let r2 := anglesLoop cfg env label sign sp gi si hi h (ai + 1) r1.1 rest
      (r2.1, Event.poseCmd (carMS cfg sp h ang) true :: (r1.2 ++ r2.2))
    else
      let r2 := anglesLoop cfg env label sign sp gi si hi h (ai + 1) idx rest
      (r2.1, Event.poseCmd (carMS cfg sp h ang) false :: r2.2)

/-- The `for h in heights` loop (lines 102-156). -/
noncomputable def heightsLoop (cfg : Config) (env : Env) (label sign : String) (sp : Pos)
    (gi si : Nat) : Nat → Nat → List ℝ → Nat × List Event
  | _, idx, [] => (idx, [])
  | hi, idx, h :: rest =>
    let r1 := anglesLoop cfg env label sign sp gi si hi h 0 idx cfg.angles
    let r2 := heightsLoop cfg env label sign sp gi si (hi + 1) r1.1 rest
    (r2.1, r1.2 ++ r2.2)

/-- The `for sign_name in sign_list` loop (lines 89-156).  A failed pose query
skips the whole sign; a found sign is swept with its filename index reset
to `0`. -/
noncomputable def signsLoop (cfg : Config) (env : Env) (label : String) (gi : Nat) :
    Nat → List String → List Event
  | _, [] => []
  | si, sign :: rest =>
    match env.getState sign with
    | none => Event.getStateQuery sign false :: signsLoop cfg env label gi (si + 1) rest
    | some sp =>
      Event.getStateQuery sign true ::
        ((heightsLoop cfg env label sign sp gi si 0 0 cfg.heights).2 ++
          signsLoop cfg env label gi (si + 1) rest)

/-- The `for label, sign_list in targets` loop (lines 85-156). -/
noncomputable def groupsLoop (cfg : Config) (env : Env) :
    Nat → List (String × List String) → List Event
  | _, [] => []
  | gi, (label, signs) :: rest =>
    signsLoop cfg env label gi 0 signs ++ groupsLoop cfg env (gi + 1) rest

/-- The hard-coded STOP sign models (line 61). -/
def stop_signs : List String :=
  ["STOP_A", "STOP_C", "STOP_E", "STOP_G", "STOP_W", "STOP_Y", "STOP_Z"]

/-- The hard-coded parking sign models (line 62). -/
def parking_signs : List String :=
  ["PRK_P1", "PRK_P2", "PRK_P3", "PRK_P4"]

/-- The hard-coded capture targets (lines 64-67). -/
def targets : List (String × List String) :=
  [("STOP", stop_signs), ("PARKING", parking_signs)]

/-- A whole run of `main` after argument parsing: the pre-flight frame check
(lines 73-81) aborts the run with an empty trace on failure; otherwise the
sweep over all targets runs. -/
noncomputable def run (cfg : Config) (env : Env) : List Event :=
  if env.preflightOk then groupsLoop cfg env 0 targets else []

/-- The pose commands of a trace, in order. -/
def poseCmds (t : List Event) : List ModelState :=
  t.filterMap fun e => match e with
    | Event.poseCmd ms _ => some ms
    | _ => none

/-- The filename indices of the files saved for a given sign, in order. -/
def savedIdx (sign : String) (t : List Event) : List Nat :=
  t.filterMap fun e => match e with
    | Event.fileSaved _ sg i => if sg = sign then some i else none
    | _ => none

/-- All saved files of a trace: group label, sign name, filename index. -/
def savedFiles (t : List Event) : List (String × String × Nat) :=
  t.filterMap fun e => match e with
    | Event.fileSaved lb sg i => some (lb, sg, i)
    | _ => none

/-- The model-state (sign pose) queries of a trace, in order. -/
def stateQueries (t : List Event) : List String :=
  t.filterMap fun e => match e with
    | Event.getStateQuery sg _ => some sg
    | _ => none

/-- The camera frame queries of a trace (their outcomes), in order. -/
def frameQueries (t : List Event) : List Bool :=
  t.filterMap fun e => match e with
    | Event.frameQuery b => some b
    | _ => none

/-! Sample configurations and environments used to instantiate theorems. -/

/-- The script's default configuration, with angles already in radians. -/
noncomputable def cfgDefault : Config :=
  ⟨"automobile", "dataset", 1.2, [0.15, 0.25], [0, 0.5], 1⟩

/-- Environment where every interaction succeeds and every sign sits at the
origin. -/
def envAllOk : Env :=
  ⟨true, fun _ => some ⟨0, 0, 0⟩, fun _ _ _ _ => true,
   fun _ _ _ _ _ => true, fun _ _ _ _ _ => true⟩

/-- Environment whose pre-flight frame check fails. -/
def envNoFrames : Env :=
  ⟨false, fun _ => some ⟨0, 0, 0⟩, fun _ _ _ _ => true,
   fun _ _ _ _ _ => true, fun _ _ _ _ _ => true⟩

/-- Small configuration: one height, one angle, two shots per pose. -/
noncomputable def cfgTwoShots : Config :=
  ⟨"automobile", "dataset", 1.2, [0.15], [0], 2⟩

/-- Environment where only `STOP_A` is in the scene, frames always arrive,
and the very first disk write (shot `0`) fails while all later writes
succeed. -/
def envFirstWriteFails : Env :=
  ⟨true, fun sg => if sg = "STOP_A" then some ⟨0, 0, 0⟩ else none,
   fun _ _ _ _ => true, fun _ _ _ _ _ => true,
   fun _ _ _ _ s => !(s == 0)⟩

/-- Environment where the frame query of shot `1` times out and everything
else succeeds. -/
def envShotOneTimesOut : Env :=
  ⟨true, fun _ => some ⟨0, 0, 0⟩, fun _ _ _ _ => true,
   fun _ _ _ _ s => !(s == 1), fun _ _ _ _ _ => true⟩

/-- Environment where no sign can be found in the scene. -/
def envNoSigns : Env :=
  ⟨true, fun _ => none, fun _ _ _ _ => true,
   fun _ _ _ _ _ => true, fun _ _ _ _ _ => true⟩

/-- Environment where every vehicle reposition command is rejected. -/
def envSetFails : Env :=
  ⟨true, fun _ => some ⟨0, 0, 0⟩, fun _ _ _ _ => false,
   fun _ _ _ _ _ => true, fun _ _ _ _ _ => true⟩

end SyntheticCapture

namespace SyntheticCapture

/-! ### Projection helper lemmas -/

@[simp] theorem poseCmds_nil : poseCmds [] = [] := rfl

@[simp] theorem poseCmds_cons_query (sg : String) (b : Bool) (t : List Event) :
    poseCmds (Event.getStateQuery sg b :: t) = poseCmds t := rfl

@[simp] theorem poseCmds_cons_pose (ms : ModelState) (b : Bool) (t : List Event) :
    poseCmds (Event.poseCmd ms b :: t) = ms :: poseCmds t := rfl

@[simp] theorem poseCmds_cons_frame (b : Bool) (t : List Event) :
    poseCmds (Event.frameQuery b :: t) = poseCmds t := rfl

@[simp] theorem poseCmds_cons_file (lb sg : String) (i : Nat) (t : List Event) :
    poseCmds (Event.fileSaved lb sg i :: t) = poseCmds t := rfl

@[simp] theorem poseCmds_append (s t : List Event) :
    poseCmds (s ++ t) = poseCmds s ++ poseCmds t :=
  List.filterMap_append s t _

@[simp] theorem savedIdx_nil (sign : String) : savedIdx sign [] = [] := rfl

@[simp] theorem savedIdx_cons_query (sign sg : String) (b : Bool) (t : List Event) :
    savedIdx sign (Event.getStateQuery sg b :: t) = savedIdx sign t := rfl

@[simp] theorem savedIdx_cons_pose (sign : String) (ms : ModelState) (b : Bool)
    (t : List Event) :
    savedIdx sign (Event.poseCmd ms b :: t) = savedIdx sign t := rfl

@[simp] theorem savedIdx_cons_frame (sign : String) (b : Bool) (t : List Event) :
    savedIdx sign (Event.frameQuery b :: t) = savedIdx sign t := rfl

theorem savedIdx_cons_file (sign lb sg : String) (i : Nat) (t : List Event) :
    savedIdx sign (Event.fileSaved lb sg i :: t)
      = if sg = sign then i :: savedIdx sign t else savedIdx sign t := by
  by_cases h : sg = sign <;> simp [savedIdx, List.filterMap_cons, h]

@[simp] theorem savedIdx_cons_file_same (sign lb : String) (i : Nat) (t : List Event) :
    savedIdx sign (Event.fileSaved lb sign i :: t) = i :: savedIdx sign t := by
  simp [savedIdx_cons_file]

@[simp] theorem savedIdx_append (sign : String) (s t : List Event) :
    savedIdx sign (s ++ t) = savedIdx sign s ++ savedIdx sign t :=
  List.filterMap_append s t _

@[simp] theorem savedFiles_nil : savedFiles [] = [] := rfl

@[simp] theorem savedFiles_cons_query (sg : String) (b : Bool) (t : List Event) :
    savedFiles (Event.getStateQuery sg b :: t) = savedFiles t := rfl

@[simp] theorem savedFiles_cons_pose (ms : ModelState) (b : Bool) (t : List Event) :
    savedFiles (Event.poseCmd ms b :: t) = savedFiles t := rfl

@[simp] theorem savedFiles_cons_frame (b : Bool) (t : List Event) :
    savedFiles (Event.frameQuery b :: t) = savedFiles t := rfl

@[simp] theorem savedFiles_cons_file (lb sg : String) (i : Nat) (t : List Event) :
    savedFiles (Event.fileSaved lb sg i :: t) = (lb, sg, i) :: savedFiles t := rfl

@[simp] theorem savedFiles_append (s t : List Event) :
    savedFiles (s ++ t) = savedFiles s ++ savedFiles t :=
  List.filterMap_append s t _

@[simp] theorem stateQueries_nil : stateQueries [] = [] := rfl

@[simp] theorem stateQueries_cons_query (sg : String) (b : Bool) (t : List Event) :
    stateQueries (Event.getStateQuery sg b :: t) = sg :: stateQueries t := rfl

@[simp] theorem stateQueries_cons_pose (ms : ModelState) (b : Bool) (t : List Event) :
    stateQueries (Event.poseCmd ms b :: t) = stateQueries t := rfl

@[simp] theorem stateQueries_cons_frame (b : Bool) (t : List Event) :
    stateQueries (Event.frameQuery b :: t) = stateQueries t := rfl

@[simp] theorem stateQueries_cons_file (lb sg : String) (i : Nat) (t : List Event) :
    stateQueries (Event.fileSaved lb sg i :: t) = stateQueries t := rfl

@[simp] theorem stateQueries_append (s t : List Event) :
    stateQueries (s ++ t) = stateQueries s ++ stateQueries t :=
  List.filterMap_append s t _

@[simp] theorem frameQueries_nil : frameQueries [] = [] := rfl

@[simp] theorem frameQueries_cons_query (sg : String) (b : Bool) (t : List Event) :
    frameQueries (Event.getStateQuery sg b :: t) = frameQueries t := rfl

@[simp] theorem frameQueries_cons_pose (ms : ModelState) (b : Bool) (t : List Event) :
    frameQueries (Event.poseCmd ms b :: t) = frameQueries t := rfl

@[simp] theorem frameQueries_cons_frame (b : Bool) (t : List Event) :
    frameQueries (Event.frameQuery b :: t) = b :: frameQueries t := rfl

@[simp] theorem frameQueries_cons_file (lb sg : String) (i : Nat) (t : List Event) :
    frameQueries (Event.fileSaved lb sg i :: t) = frameQueries t := rfl

@[simp] theorem frameQueries_append (s t : List Event) :
    frameQueries (s ++ t) = frameQueries s ++ frameQueries t :=
  List.filterMap_append s t _

/-! ### C3: circle placement -/

/-- C3: for every angle and height, the computed vehicle position satisfies
`cx = sx + radius*cos(ang)`, `cy = sy + radius*sin(ang)`, `cz = sz + h`, and
with a positive radius it lies at exact Euclidean distance `radius` from the
sign's `(x, y)` in the horizontal plane. -/
theorem carPos_on_circle (sp : Pos) (radius h ang : ℝ) (hr : 0 < radius) :
    (carPos sp radius h ang).x = sp.x + radius * Real.cos ang ∧
    (carPos sp radius h ang).y = sp.y + radius * Real.sin ang ∧
    (carPos sp radius h ang).z = sp.z + h ∧
    Real.sqrt (((carPos sp radius h ang).x - sp.x) ^ 2 +
      ((carPos sp radius h ang).y - sp.y) ^ 2) = radius := by
  refine ⟨rfl, rfl, rfl, ?_⟩
  have hsq : ((carPos sp radius h ang).x - sp.x) ^ 2 +
      ((carPos sp radius h ang).y - sp.y) ^ 2 = radius ^ 2 := by
    show (sp.x + radius * Real.cos ang - sp.x) ^ 2 +
        (sp.y + radius * Real.sin ang - sp.y) ^ 2 = radius ^ 2
    linear_combination (radius ^ 2) * Real.sin_sq_add_cos_sq ang
  rw [hsq, Real.sqrt_sq hr.le]

/-- Witness for C3 at the origin with radius 1, height 0, angle 0. -/
theorem carPos_on_circle_witness :
    (carPos ⟨0, 0, 0⟩ 1 0 0).x = (0 : ℝ) + 1 * Real.cos 0 ∧
    (carPos ⟨0, 0, 0⟩ 1 0 0).y = (0 : ℝ) + 1 * Real.sin 0 ∧
    (carPos ⟨0, 0, 0⟩ 1 0 0).z = (0 : ℝ) + 0 ∧
    Real.sqrt (((carPos ⟨0, 0, 0⟩ 1 0 0).x - 0) ^ 2 +
      ((carPos ⟨0, 0, 0⟩ 1 0 0).y - 0) ^ 2) = 1 :=
  carPos_on_circle ⟨0, 0, 0⟩ 1 0 0 (by norm_num)

/-! ### C4: yaw faces the sign -/

/-- C4: with a positive radius, the computed yaw satisfies that
`(cos(yaw), sin(yaw))` scaled by `radius` is exactly the vector from the
vehicle's `(cx, cy)` to the sign's `(sx, sy)`, and as an angle modulo `2π`
the yaw equals `ang + π`. -/
theorem carYaw_faces_sign (sp : Pos) (radius h ang : ℝ) (hr : 0 < radius) :
    Real.cos (carYaw sp (carPos sp radius h ang)) * radius
        = sp.x - (carPos sp radius h ang).x ∧
    Real.sin (carYaw sp (carPos sp radius h ang)) * radius
        = sp.y - (carPos sp radius h ang).y ∧
    (↑(carYaw sp (carPos sp radius h ang)) : Real.Angle)
        = ((ang + Real.pi : ℝ) : Real.Angle) := by
  have hz : (⟨sp.x - (carPos sp radius h ang).x,
        sp.y - (carPos sp radius h ang).y⟩ : ℂ)
      = (radius : ℂ) *
          (↑(Real.Angle.cos ((ang + Real.pi : ℝ) : Real.Angle)) +
            ↑(Real.Angle.sin ((ang + Real.pi : ℝ) : Real.Angle)) * Complex.I) := by
    rw [Real.Angle.cos_coe, Real.Angle.sin_coe, Real.cos_add_pi, Real.sin_add_pi,
      Complex.mk_eq_add_mul_I]
    show (↑(sp.x - (sp.x + radius * Real.cos ang)) : ℂ)
        + ↑(sp.y - (sp.y + radius * Real.sin ang)) * Complex.I
        = (radius : ℂ) * (↑(-Real.cos ang) + ↑(-Real.sin ang) * Complex.I)
    push_cast
    ring
  have key : (↑(carYaw sp (carPos sp radius h ang)) : Real.Angle)
      = ((ang + Real.pi : ℝ) : Real.Angle) := by
    show ((Complex.arg ⟨sp.x - (carPos sp radius h ang).x,
        sp.y - (carPos sp radius h ang).y⟩ : ℝ) : Real.Angle) = _
    rw [hz, Complex.arg_mul_cos_add_sin_mul_I_coe_angle hr]
  refine ⟨?_, ?_, key⟩
  · have hc : Real.cos (carYaw sp (carPos sp radius h ang))
        = Real.cos (ang + Real.pi) := by
      rw [← Real.Angle.cos_coe, key, Real.Angle.cos_coe]
    rw [hc, Real.cos_add_pi]
    show -Real.cos ang * radius = sp.x - (sp.x + radius * Real.cos ang)
    ring
  · have hs : Real.sin (carYaw sp (carPos sp radius h ang))
        = Real.sin (ang + Real.pi) := by
      rw [← Real.Angle.sin_coe, key, Real.Angle.sin_coe]
    rw [hs, Real.sin_add_pi]
    show -Real.sin ang * radius = sp.y - (sp.y + radius * Real.sin ang)
    ring

/-- Witness for C4 at the origin with radius 1, height 0, angle 0. -/
theorem carYaw_faces_sign_witness :
    Real.cos (carYaw ⟨0, 0, 0⟩ (carPos ⟨0, 0, 0⟩ 1 0 0)) * 1
        = (0 : ℝ) - (carPos ⟨0, 0, 0⟩ 1 0 0).x ∧
    Real.sin (carYaw ⟨0, 0, 0⟩ (carPos ⟨0, 0, 0⟩ 1 0 0)) * 1
        = (0 : ℝ) - (carPos ⟨0, 0, 0⟩ 1 0 0).y ∧
    (↑(carYaw ⟨0, 0, 0⟩ (carPos ⟨0, 0, 0⟩ 1 0 0)) : Real.Angle)
        = (((0 : ℝ) + Real.pi : ℝ) : Real.Angle) :=
  carYaw_faces_sign ⟨0, 0, 0⟩ 1 0 0 (by norm_num)

/-! ### C5: yaw-only quaternion -/

/-- C5 counterexample: the round trip `2 * atan2(z, w)` does not recover
`yaw = 4π`; the components of `quat_from_yaw (4π)` are `z = sin(2π) = 0`
and `w = cos(2π) = 1`, so the round trip yields `0 ≠ 4π`. -/
theorem quat_roundtrip_counterexample :
    ¬ (2 * atan2 ((quat_from_yaw (4 * Real.pi)).2.2.1)
        ((quat_from_yaw (4 * Real.pi)).2.2.2) = 4 * Real.pi) := by
  have hz : (quat_from_yaw (4 * Real.pi)).2.2.1 = 0 := by
    show Real.sin (4 * Real.pi * 0.5) = 0
    have : (4 : ℝ) * Real.pi * 0.5 = 2 * Real.pi := by ring
    rw [this, Real.sin_two_pi]
  have hw : (quat_from_yaw (4 * Real.pi)).2.2.2 = 1 := by
    show Real.cos (4 * Real.pi * 0.5) = 1
    have : (4 : ℝ) * Real.pi * 0.5 = 2 * Real.pi := by ring
    rw [this, Real.cos_two_pi]
  rw [hz, hw]
  have h1 : atan2 0 1 = 0 := by
    show Complex.arg ⟨1, 0⟩ = 0
    have : (⟨1, 0⟩ : ℂ) = 1 := by apply Complex.ext <;> simp
    rw [this, Complex.arg_one]
  rw [h1]
  have := Real.pi_pos
  intro hcontra
  nlinarith

/-- C5 (amended): for every yaw the quaternion has `x = y = 0` and
`z^2 + w^2 = 1`, and for yaw in `(-2π, 2π]` the round trip
`2 * atan2(z, w)` recovers yaw exactly. -/
theorem quat_from_yaw_spec (yaw : ℝ)
    (hyaw : yaw ∈ Set.Ioc (-(2 * Real.pi)) (2 * Real.pi)) :
    (quat_from_yaw yaw).1 = 0 ∧ (quat_from_yaw yaw).2.1 = 0 ∧
    (quat_from_yaw yaw).2.2.1 ^ 2 + (quat_from_yaw yaw).2.2.2 ^ 2 = 1 ∧
    2 * atan2 ((quat_from_yaw yaw).2.2.1) ((quat_from_yaw yaw).2.2.2) = yaw := by
  refine ⟨rfl, rfl, Real.sin_sq_add_cos_sq (yaw * 0.5), ?_⟩
  have ht : yaw * 0.5 ∈ Set.Ioc (-Real.pi) Real.pi := by
    obtain ⟨h1, h2⟩ := hyaw
    constructor <;> [nlinarith; nlinarith]
  have harg : atan2 (Real.sin (yaw * 0.5)) (Real.cos (yaw * 0.5)) = yaw * 0.5 := by
    show Complex.arg ⟨Real.cos (yaw * 0.5), Real.sin (yaw * 0.5)⟩ = yaw * 0.5
    rw [Complex.mk_eq_add_mul_I, Complex.ofReal_cos, Complex.ofReal_sin]
    exact Complex.arg_cos_add_sin_mul_I ht
  show 2 * atan2 (Real.sin (yaw * 0.5)) (Real.cos (yaw * 0.5)) = yaw
  rw [harg]; ring

/-- Witness for C5 (amended) at `yaw = π`. -/
theorem quat_from_yaw_spec_witness :
    (quat_from_yaw Real.pi).1 = 0 ∧ (quat_from_yaw Real.pi).2.1 = 0 ∧
    (quat_from_yaw Real.pi).2.2.1 ^ 2 + (quat_from_yaw Real.pi).2.2.2 ^ 2 = 1 ∧
    2 * atan2 ((quat_from_yaw Real.pi).2.2.1) ((quat_from_yaw Real.pi).2.2.2)
      = Real.pi :=
  quat_from_yaw_spec Real.pi
    ⟨by nlinarith [Real.pi_pos], by nlinarith [Real.pi_pos]⟩

/-! ### C2: pre-flight abort -/

/-- C2: if the pre-flight camera-frame check fails, the run aborts with an
empty trace: zero pose commands are issued and zero files are written. -/
theorem preflight_fail_aborts (cfg : Config) (env : Env)
    (hpf : env.preflightOk = false) :
    run cfg env = [] ∧ poseCmds (run cfg env) = [] ∧
    savedFiles (run cfg env) = [] := by
  have h : run cfg env = [] := by simp [run, hpf]
  exact ⟨h, by rw [h]; rfl, by rw [h]; rfl⟩

/-- Witness for C2: the default configuration against an environment whose
pre-flight frame check fails. -/
theorem preflight_fail_aborts_witness :
    run cfgDefault envNoFrames = [] ∧
    poseCmds (run cfgDefault envNoFrames) = [] ∧
    savedFiles (run cfgDefault envNoFrames) = [] :=
  preflight_fail_aborts cfgDefault envNoFrames rfl

/-! ### Index bookkeeping through the loops -/

/-- When every disk write succeeds, the shots loop saves exactly the
contiguous index range `idx+1 .. idx'` and never decreases the index. -/
theorem shotsLoop_savedIdx (env : Env) (label sign : String) (gi si hi ai : Nat)
    (hw : ∀ s, env.writeOk gi si hi ai s = true) :
    ∀ (c idx s : Nat),
      idx ≤ (shotsLoop env label sign gi si hi ai idx s c).1 ∧
      savedIdx sign (shotsLoop env label sign gi si hi ai idx s c).2
        = List.range' (idx + 1)
            ((shotsLoop env label sign gi si hi ai idx s c).1 - idx) := by
  intro c
  induction c with
  | zero => intro idx s; simp [shotsLoop]
  | succ c ih =>
    intro idx s
    by_cases hf : env.frameOk gi si hi ai s = true
    · obtain ⟨hle, hsaved⟩ := ih (idx + 1) (s + 1)
      have h1 : (shotsLoop env label sign gi si hi ai idx s (c + 1)).1
          = (shotsLoop env label sign gi si hi ai (idx + 1) (s + 1) c).1 := by
        simp [shotsLoop, hf, hw s]
      have h2 : savedIdx sign (shotsLoop env label sign gi si hi ai idx s (c + 1)).2
          = (idx + 1) ::
            savedIdx sign (shotsLoop env label sign gi si hi ai (idx + 1) (s + 1) c).2 := by
        simp [shotsLoop, hf, hw s]
      refine ⟨by omega, ?_⟩
      rw [h2, hsaved, h1]
      have h3 : (shotsLoop env label sign gi si hi ai (idx + 1) (s + 1) c).1 - idx
          = ((shotsLoop env label sign gi si hi ai (idx + 1) (s + 1) c).1 - (idx + 1)) + 1 := by
        omega
      rw [h3, List.range'_succ]
    · obtain ⟨hle, hsaved⟩ := ih idx (s + 1)
      have h1 : (shotsLoop env label sign gi si hi ai idx s (c + 1)).1
          = (shotsLoop env label sign gi si hi ai idx (s + 1) c).1 := by
        simp [shotsLoop, hf]
      have h2 : savedIdx sign (shotsLoop env label sign gi si hi ai idx s (c + 1)).2
          = savedIdx sign (shotsLoop env label sign gi si hi ai idx (s + 1) c).2 := by
        simp [shotsLoop, hf]
      exact ⟨by omega, by rw [h2, hsaved, h1]⟩

/-- When every disk write succeeds, the angles loop saves exactly the
contiguous index range `idx+1 .. idx'`. -/
theorem anglesLoop_savedIdx (cfg : Config) (env : Env) (label sign : String)
    (sp : Pos) (gi si hi : Nat) (h : ℝ)
    (hw : ∀ ai s, env.writeOk gi si hi ai s = true) :
    ∀ (angs : List ℝ) (ai idx : Nat),
      idx ≤ (anglesLoop cfg env label sign sp gi si hi h ai idx angs).1 ∧
      savedIdx sign (anglesLoop cfg env label sign sp gi si hi h ai idx angs).2
        = List.range' (idx + 1)
            ((anglesLoop cfg env label sign sp gi si hi h ai idx angs).1 - idx) := by
  intro angs
  induction angs with
  | nil => intro ai idx; simp [anglesLoop]
  | cons ang rest ih =>
    intro ai idx
    by_cases hs : env.setOk gi si hi ai = true
    · obtain ⟨hle1, hs1⟩ :=
        shotsLoop_savedIdx env label sign gi si hi ai (hw ai) cfg.shots_per_pose idx 0
      obtain ⟨hle2, hs2⟩ :=
        ih (ai + 1) (shotsLoop env label sign gi si hi ai idx 0 cfg.shots_per_pose).1
      have h1 : (anglesLoop cfg env label sign sp gi si hi h ai idx (ang :: rest)).1
          = (anglesLoop cfg env label sign sp gi si hi h (ai + 1)
              (shotsLoop env label sign gi si hi ai idx 0 cfg.shots_per_pose).1 rest).1 := by
        simp [anglesLoop, hs]
      have h2 : savedIdx sign (anglesLoop cfg env label sign sp gi si hi h ai idx (ang :: rest)).2
          = savedIdx sign (shotsLoop env label sign gi si hi ai idx 0 cfg.shots_per_pose).2 ++
            savedIdx sign (anglesLoop cfg env label sign sp gi si hi h (ai + 1)
              (shotsLoop env label sign gi si hi ai idx 0 cfg.shots_per_pose).1 rest).2 := by
        simp [anglesLoop, hs]
      refine ⟨by omega, ?_⟩
      rw [h2, hs1, hs2, h1]
      have happ := List.range'_append (idx + 1)
        ((shotsLoop env label sign gi si hi ai idx 0 cfg.shots_per_pose).1 - idx)
        ((anglesLoop cfg env label sign sp gi si hi h (ai + 1)
            (shotsLoop env label sign gi si hi ai idx 0 cfg.shots_per_pose).1 rest).1 -
          (shotsLoop env label sign gi si hi ai idx 0 cfg.shots_per_pose).1) 1
      have e1 : (idx + 1) +
          1 * ((shotsLoop env label sign gi si hi ai idx 0 cfg.shots_per_pose).1 - idx)
          = (shotsLoop env label sign gi si hi ai idx 0 cfg.shots_per_pose).1 + 1 := by
        omega
      have e2 : ((anglesLoop cfg env label sign sp gi si hi h (ai + 1)
            (shotsLoop env label sign gi si hi ai idx 0 cfg.shots_per_pose).1 rest).1 -
          (shotsLoop env label sign gi si hi ai idx 0 cfg.shots_per_pose).1) +
          ((shotsLoop env label sign gi si hi ai idx 0 cfg.shots_per_pose).1 - idx)
          = (anglesLoop cfg env label sign sp gi si hi h (ai + 1)
              (shotsLoop env label sign gi si hi ai idx 0 cfg.shots_per_pose).1 rest).1 - idx := by
        omega
      rw [e1, e2] at happ
      exact happ
    · obtain ⟨hle2, hs2⟩ := ih (ai + 1) idx
      have h1 : (anglesLoop cfg env label sign sp gi si hi h ai idx (ang :: rest)).1
          = (anglesLoop cfg env label sign sp gi si hi h (ai + 1) idx rest).1 := by
        simp [anglesLoop, hs]
      have h2 : savedIdx sign (anglesLoop cfg env label sign sp gi si hi h ai idx (ang :: rest)).2
          = savedIdx sign (anglesLoop cfg env label sign sp gi si hi h (ai + 1) idx rest).2 := by
        simp [anglesLoop, hs]
      exact ⟨by omega, by rw [h2, hs2, h1]⟩

/-- When every disk write succeeds, the heights loop saves exactly the
contiguous index range `idx+1 .. idx'`. -/
theorem heightsLoop_savedIdx (cfg : Config) (env : Env) (label sign : String)
    (sp : Pos) (gi si : Nat)
    (hw : ∀ hi ai s, env.writeOk gi si hi ai s = true) :
    ∀ (hs : List ℝ) (hi idx : Nat),
      idx ≤ (heightsLoop cfg env label sign sp gi si hi idx hs).1 ∧
      savedIdx sign (heightsLoop cfg env label sign sp gi si hi idx hs).2
        = List.range' (idx + 1)
            ((heightsLoop cfg env label sign sp gi si hi idx hs).1 - idx) := by
  intro hs
  induction hs with
  | nil => intro hi idx; simp [heightsLoop]
  | cons h rest ih =>
    intro hi idx
    obtain ⟨hle1, hs1⟩ :=
      anglesLoop_savedIdx cfg env label sign sp gi si hi h (hw hi) cfg.angles 0 idx
    obtain ⟨hle2, hs2⟩ :=
      ih (hi + 1) (anglesLoop cfg env label sign sp gi si hi h 0 idx cfg.angles).1
    have h1 : (heightsLoop cfg env label sign sp gi si hi idx (h :: rest)).1
        = (heightsLoop cfg env label sign sp gi si (hi + 1)
            (anglesLoop cfg env label sign sp gi si hi h 0 idx cfg.angles).1 rest).1 := by
      simp [heightsLoop]
    have h2 : savedIdx sign (heightsLoop cfg env label sign sp gi si hi idx (h :: rest)).2
        = savedIdx sign (anglesLoop cfg env label sign sp gi si hi h 0 idx cfg.angles).2 ++
          savedIdx sign (heightsLoop cfg env label sign sp gi si (hi + 1)
            (anglesLoop cfg env label sign sp gi si hi h 0 idx cfg.angles).1 rest).2 := by
      simp [heightsLoop]
    refine ⟨by omega, ?_⟩
    rw [h2, hs1, hs2, h1]
    have happ := List.range'_append (idx + 1)
      ((anglesLoop cfg env label sign sp gi si hi h 0 idx cfg.angles).1 - idx)
      ((heightsLoop cfg env label sign sp gi si (hi + 1)
          (anglesLoop cfg env label sign sp gi si hi h 0 idx cfg.angles).1 rest).1 -
        (anglesLoop cfg env label sign sp gi si hi h 0 idx cfg.angles).1) 1
    have e1 : (idx + 1) +
        1 * ((anglesLoop cfg env label sign sp gi si hi h 0 idx cfg.angles).1 - idx)
        = (anglesLoop cfg env label sign sp gi si hi h 0 idx cfg.angles).1 + 1 := by
      omega
    have e2 : ((heightsLoop cfg env label sign sp gi si (hi + 1)
          (anglesLoop cfg env label sign sp gi si hi h 0 idx cfg.angles).1 rest).1 -
        (anglesLoop cfg env label sign sp gi si hi h 0 idx cfg.angles).1) +
        ((anglesLoop cfg env label sign sp gi si hi h 0 idx cfg.angles).1 - idx)
        = (heightsLoop cfg env label sign sp gi si (hi + 1)
            (anglesLoop cfg env label sign sp gi si hi h 0 idx cfg.angles).1 rest).1 - idx := by
      omega
    rw [e1, e2] at happ
    exact happ

/-! ### C1: per-object filename indices -/

/-- C1 counterexample: with every frame arriving, the first disk write
failing and the second succeeding (two shots at a single pose), the saved
indices for `STOP_A` are `[2]`: the counter was advanced by the failed
write, so the saved file indices neither start at 1 nor are gap-free. -/
theorem idx_advances_on_failed_write :
    savedIdx "STOP_A" (run cfgTwoShots envFirstWriteFails) = [2] := by
  simp [run, envFirstWriteFails, cfgTwoShots, groupsLoop, targets, stop_signs,
    parking_signs, signsLoop, heightsLoop, anglesLoop, shotsLoop]

/-- C1 (amended): per-object filename indices start at 1 and increase by one
with each successful frame capture, so when every disk write succeeds the
saved indices for an object are exactly the contiguous range `1 .. idx'`
with no gaps; the index is reset to 0 at the start of each object's sweep
(each found sign enters its sweep with index 0).  On a failed disk write the
index is still advanced, so a write failure leaves a gap (see the
counterexample). -/
theorem filename_idx_contiguous (cfg : Config) (env : Env) (label sign : String)
    (sp : Pos) (gi si : Nat)
    (hw : ∀ a b c d e, env.writeOk a b c d e = true) :
    savedIdx sign (heightsLoop cfg env label sign sp gi si 0 0 cfg.heights).2
      = List.range' 1 (heightsLoop cfg env label sign sp gi si 0 0 cfg.heights).1 ∧
    ∀ rest : List String, env.getState sign = some sp →
      signsLoop cfg env label gi si (sign :: rest)
        = Event.getStateQuery sign true ::
            ((heightsLoop cfg env label sign sp gi si 0 0 cfg.heights).2 ++
              signsLoop cfg env label gi (si + 1) rest) := by
  constructor
  · obtain ⟨hle, hsv⟩ := heightsLoop_savedIdx cfg env label sign sp gi si
      (fun hi ai s => hw gi si hi ai s) cfg.heights 0 0
    simpa using hsv
  · intro rest hg
    simp [signsLoop, hg]

/-- Witness for C1 (amended): a sweep of `STOP_A` with one height, one angle
and two shots per pose, everything succeeding. -/
theorem filename_idx_contiguous_witness :
    savedIdx "STOP_A"
        (heightsLoop cfgTwoShots envAllOk "STOP" "STOP_A" ⟨0, 0, 0⟩ 0 0 0 0
          cfgTwoShots.heights).2
      = List.range' 1
          (heightsLoop cfgTwoShots envAllOk "STOP" "STOP_A" ⟨0, 0, 0⟩ 0 0 0 0
            cfgTwoShots.heights).1 ∧
    signsLoop cfgTwoShots envAllOk "STOP" 0 0 ["STOP_A"]
      = Event.getStateQuery "STOP_A" true ::
          ((heightsLoop cfgTwoShots envAllOk "STOP" "STOP_A" ⟨0, 0, 0⟩ 0 0 0 0
              cfgTwoShots.heights).2 ++
            signsLoop cfgTwoShots envAllOk "STOP" 0 1 []) :=
  ⟨(filename_idx_contiguous cfgTwoShots envAllOk "STOP" "STOP_A" ⟨0, 0, 0⟩ 0 0
      (fun _ _ _ _ _ => rfl)).1,
   (filename_idx_contiguous cfgTwoShots envAllOk "STOP" "STOP_A" ⟨0, 0, 0⟩ 0 0
      (fun _ _ _ _ _ => rfl)).2 [] rfl⟩

/-! ### C6: one frame timeout out of three shots -/

/-- C6: at a pose with three shots per pose where exactly one of the three
frame queries fails and both remaining writes succeed, exactly two files are
saved (indices `idx+1` and `idx+2`) and the counter advances by exactly 2;
moreover a failed frame query never advances the index. -/
theorem one_frame_timeout_two_files (env : Env) (label sign : String)
    (gi si hi ai idx j : Nat) (hj : j < 3)
    (hfail : env.frameOk gi si hi ai j = false)
    (hok : ∀ s, s < 3 → s ≠ j → env.frameOk gi si hi ai s = true)
    (hw : ∀ s, s < 3 → env.writeOk gi si hi ai s = true) :
    (shotsLoop env label sign gi si hi ai idx 0 3).1 = idx + 2 ∧
    savedIdx sign (shotsLoop env label sign gi si hi ai idx 0 3).2
      = [idx + 1, idx + 2] ∧
    ∀ (idx0 s c : Nat), env.frameOk gi si hi ai s = false →
      (shotsLoop env label sign gi si hi ai idx0 s (c + 1)).1
        = (shotsLoop env label sign gi si hi ai idx0 (s + 1) c).1 ∧
      savedIdx sign (shotsLoop env label sign gi si hi ai idx0 s (c + 1)).2
        = savedIdx sign (shotsLoop env label sign gi si hi ai idx0 (s + 1) c).2 := by
  have hgen : ∀ (idx0 s c : Nat), env.frameOk gi si hi ai s = false →
      (shotsLoop env label sign gi si hi ai idx0 s (c + 1)).1
        = (shotsLoop env label sign gi si hi ai idx0 (s + 1) c).1 ∧
      savedIdx sign (shotsLoop env label sign gi si hi ai idx0 s (c + 1)).2
        = savedIdx sign (shotsLoop env label sign gi si hi ai idx0 (s + 1) c).2 := by
    intro idx0 s c hf
    constructor <;> simp [shotsLoop, hf]
  have hmain : (shotsLoop env label sign gi si hi ai idx 0 3).1 = idx + 2 ∧
      savedIdx sign (shotsLoop env label sign gi si hi ai idx 0 3).2
        = [idx + 1, idx + 2] := by
    interval_cases j
    · have f1 := hok 1 (by omega) (by omega)
      have f2 := hok 2 (by omega) (by omega)
      have w1 := hw 1 (by omega)
      have w2 := hw 2 (by omega)
      constructor <;> simp [shotsLoop, hfail, f1, f2, w1, w2]
    · have f0 := hok 0 (by omega) (by omega)
      have f2 := hok 2 (by omega) (by omega)
      have w0 := hw 0 (by omega)
      have w2 := hw 2 (by omega)
      constructor <;> simp [shotsLoop, hfail, f0, f2, w0, w2]
    · have f0 := hok 0 (by omega) (by omega)
      have f1 := hok 1 (by omega) (by omega)
      have w0 := hw 0 (by omega)
      have w1 := hw 1 (by omega)
      constructor <;> simp [shotsLoop, hfail, f0, f1, w0, w1]
  exact ⟨hmain.1, hmain.2, hgen⟩

/-- Witness for C6: shot 1 of 3 times out, the two other shots are saved. -/
theorem one_frame_timeout_two_files_witness :
    (shotsLoop envShotOneTimesOut "STOP" "STOP_A" 0 0 0 0 0 0 3).1 = 0 + 2 ∧
    savedIdx "STOP_A" (shotsLoop envShotOneTimesOut "STOP" "STOP_A" 0 0 0 0 0 0 3).2
      = [0 + 1, 0 + 2] ∧
    (shotsLoop envShotOneTimesOut "STOP" "STOP_A" 0 0 0 0 5 1 (0 + 1)).1
      = (shotsLoop envShotOneTimesOut "STOP" "STOP_A" 0 0 0 0 5 (1 + 1) 0).1 := by
  have h := one_frame_timeout_two_files envShotOneTimesOut "STOP" "STOP_A"
    0 0 0 0 0 1 (by omega) rfl
    (by intro s hs hne; interval_cases s
        · rfl
        · exact absurd rfl hne
        · rfl)
    (fun _ _ => rfl)
  exact ⟨h.1, h.2.1, (h.2.2 5 1 0 rfl).1⟩

/-! ### C7: missing sign skipped, group not aborted -/

/-- C7: when the pose query for a sign fails, that whole sign is skipped:
its only contribution to the trace is the failed query event (no files, no
pose commands), and the remaining signs of the group are processed exactly
as they would otherwise be; later groups are likewise unaffected, since a
group's trace is always followed by the untouched trace of the remaining
groups. -/
theorem missing_sign_skipped (cfg : Config) (env : Env) (label sign : String)
    (gi si : Nat) (rest : List String) (hg : env.getState sign = none) :
    signsLoop cfg env label gi si (sign :: rest)
      = Event.getStateQuery sign false :: signsLoop cfg env label gi (si + 1) rest ∧
    savedFiles (signsLoop cfg env label gi si (sign :: rest))
      = savedFiles (signsLoop cfg env label gi (si + 1) rest) ∧
    poseCmds (signsLoop cfg env label gi si (sign :: rest))
      = poseCmds (signsLoop cfg env label gi (si + 1) rest) ∧
    ∀ (lb : String) (sgns : List String) (gi2 : Nat)
      (rest2 : List (String × List String)),
      groupsLoop cfg env gi2 ((lb, sgns) :: rest2)
        = signsLoop cfg env lb gi2 0 sgns ++ groupsLoop cfg env (gi2 + 1) rest2 := by
  have heq : signsLoop cfg env label gi si (sign :: rest)
      = Event.getStateQuery sign false :: signsLoop cfg env label gi (si + 1) rest := by
    simp [signsLoop, hg]
  refine ⟨heq, ?_, ?_, fun lb sgns gi2 rest2 => rfl⟩
  · rw [heq]; simp
  · rw [heq]; simp

/-- Witness for C7: no sign is in the scene; `STOP_A`'s contribution is its
failed query, and the rest of the list is processed unchanged. -/
theorem missing_sign_skipped_witness :
    signsLoop cfgDefault envNoSigns "STOP" 0 0 ["STOP_A", "STOP_C"]
      = Event.getStateQuery "STOP_A" false ::
          signsLoop cfgDefault envNoSigns "STOP" 0 1 ["STOP_C"] ∧
    savedFiles (signsLoop cfgDefault envNoSigns "STOP" 0 0 ["STOP_A", "STOP_C"])
      = savedFiles (signsLoop cfgDefault envNoSigns "STOP" 0 1 ["STOP_C"]) ∧
    poseCmds (signsLoop cfgDefault envNoSigns "STOP" 0 0 ["STOP_A", "STOP_C"])
      = poseCmds (signsLoop cfgDefault envNoSigns "STOP" 0 1 ["STOP_C"]) ∧
    groupsLoop cfgDefault envNoSigns 0 targets
      = signsLoop cfgDefault envNoSigns "STOP" 0 0 stop_signs ++
          groupsLoop cfgDefault envNoSigns 1 [("PARKING", parking_signs)] := by
  have h := missing_sign_skipped cfgDefault envNoSigns "STOP" "STOP_A" 0 0 ["STOP_C"] rfl
  exact ⟨h.1, h.2.1, h.2.2.1, h.2.2.2 "STOP" stop_signs 0 [("PARKING", parking_signs)]⟩

/-! ### C8: failed pose command skips exactly that pose -/

/-- C8: when the vehicle reposition command for one angle fails, the sweep
records only that failed pose command and continues with the next angle at
the same filename index: no frame queries and no saved files arise from the
failed pose, and the remaining angles are unaffected. -/
theorem pose_cmd_fail_skips_pose (cfg : Config) (env : Env) (label sign : String)
    (sp : Pos) (gi si hi : Nat) (h ang : ℝ) (ai idx : Nat) (rest : List ℝ)
    (hset : env.setOk gi si hi ai = false) :
    anglesLoop cfg env label sign sp gi si hi h ai idx (ang :: rest)
      = ((anglesLoop cfg env label sign sp gi si hi h (ai + 1) idx rest).1,
         Event.poseCmd (carMS cfg sp h ang) false ::
           (anglesLoop cfg env label sign sp gi si hi h (ai + 1) idx rest).2) ∧
    frameQueries (anglesLoop cfg env label sign sp gi si hi h ai idx (ang :: rest)).2
      = frameQueries (anglesLoop cfg env label sign sp gi si hi h (ai + 1) idx rest).2 ∧
    savedFiles (anglesLoop cfg env label sign sp gi si hi h ai idx (ang :: rest)).2
      = savedFiles (anglesLoop cfg env label sign sp gi si hi h (ai + 1) idx rest).2 := by
  have heq : anglesLoop cfg env label sign sp gi si hi h ai idx (ang :: rest)
      = ((anglesLoop cfg env label sign sp gi si hi h (ai + 1) idx rest).1,
         Event.poseCmd (carMS cfg sp h ang) false ::
           (anglesLoop cfg env label sign sp gi si hi h (ai + 1) idx rest).2) := by
    simp [anglesLoop, hset]
  refine ⟨heq, ?_, ?_⟩
  · rw [heq]; simp
  · rw [heq]; simp

/-- Witness for C8: every reposition command fails; one angle is skipped with
no frame queries and no files. -/
theorem pose_cmd_fail_skips_pose_witness :
    anglesLoop cfgDefault envSetFails "STOP" "STOP_A" ⟨0, 0, 0⟩ 0 0 0 0.15 0 0 [0.5]
      = ((anglesLoop cfgDefault envSetFails "STOP" "STOP_A" ⟨0, 0, 0⟩ 0 0 0 0.15 1 0 []).1,
         Event.poseCmd (carMS cfgDefault ⟨0, 0, 0⟩ 0.15 0.5) false ::
           (anglesLoop cfgDefault envSetFails "STOP" "STOP_A" ⟨0, 0, 0⟩ 0 0 0 0.15 1 0 []).2) ∧
    frameQueries (anglesLoop cfgDefault envSetFails "STOP" "STOP_A" ⟨0, 0, 0⟩ 0 0 0 0.15 0 0 [0.5]).2
      = frameQueries (anglesLoop cfgDefault envSetFails "STOP" "STOP_A" ⟨0, 0, 0⟩ 0 0 0 0.15 1 0 []).2 ∧
    savedFiles (anglesLoop cfgDefault envSetFails "STOP" "STOP_A" ⟨0, 0, 0⟩ 0 0 0 0.15 0 0 [0.5]).2
      = savedFiles (anglesLoop cfgDefault envSetFails "STOP" "STOP_A" ⟨0, 0, 0⟩ 0 0 0 0.15 1 0 []).2 :=
  pose_cmd_fail_skips_pose cfgDefault envSetFails "STOP" "STOP_A" ⟨0, 0, 0⟩
    0 0 0 0.15 0.5 0 0 [] rfl

/-! ### Pose-command and pose-query bookkeeping through the loops -/

/-- The shots loop issues no pose commands. -/
theorem shotsLoop_poseCmds (env : Env) (label sign : String) (gi si hi ai : Nat) :
    ∀ (c idx s : Nat),
      poseCmds (shotsLoop env label sign gi si hi ai idx s c).2 = [] := by
  intro c
  induction c with
  | zero => intro idx s; simp [shotsLoop]
  | succ c ih =>
    intro idx s
    by_cases hf : env.frameOk gi si hi ai s = true
    · by_cases hwr : env.writeOk gi si hi ai s = true <;>
        simp [shotsLoop, hf, hwr, ih]
    · simp [shotsLoop, hf, ih]

/-- The shots loop issues no pose queries. -/
theorem shotsLoop_stateQueries (env : Env) (label sign : String) (gi si hi ai : Nat) :
    ∀ (c idx s : Nat),
      stateQueries (shotsLoop env label sign gi si hi ai idx s c).2 = [] := by
  intro c
  induction c with
  | zero => intro idx s; simp [shotsLoop]
  | succ c ih =>
    intro idx s
    by_cases hf : env.frameOk gi si hi ai s = true
    · by_cases hwr : env.writeOk gi si hi ai s = true <;>
        simp [shotsLoop, hf, hwr, ih]
    · simp [shotsLoop, hf, ih]

/-- The angles loop issues exactly one pose command per angle, in the listed
order, each computed from the single cached sign position. -/
theorem anglesLoop_poseCmds (cfg : Config) (env : Env) (label sign : String)
    (sp : Pos) (gi si hi : Nat) (h : ℝ) :
    ∀ (angs : List ℝ) (ai idx : Nat),
      poseCmds (anglesLoop cfg env label sign sp gi si hi h ai idx angs).2
        = angs.map (fun ang => carMS cfg sp h ang) := by
  intro angs
  induction angs with
  | nil => intro ai idx; simp [anglesLoop]
  | cons ang rest ih =>
    intro ai idx
    by_cases hs : env.setOk gi si hi ai = true <;>
      simp [anglesLoop, hs, shotsLoop_poseCmds, ih]

/-- The angles loop issues no pose queries. -/
theorem anglesLoop_stateQueries (cfg : Config) (env : Env) (label sign : String)
    (sp : Pos) (gi si hi : Nat) (h : ℝ) :
    ∀ (angs : List ℝ) (ai idx : Nat),
      stateQueries (anglesLoop cfg env label sign sp gi si hi h ai idx angs).2 = [] := by
  intro angs
  induction angs with
  | nil => intro ai idx; simp [anglesLoop]
  | cons ang rest ih =>
    intro ai idx
    by_cases hs : env.setOk gi si hi ai = true <;>
      simp [anglesLoop, hs, shotsLoop_stateQueries, ih]

/-- The heights loop issues the pose commands of every height in the listed
order, angles in the listed order within each height. -/
theorem heightsLoop_poseCmds (cfg : Config) (env : Env) (label sign : String)
    (sp : Pos) (gi si : Nat) :
    ∀ (hs : List ℝ) (hi idx : Nat),
      poseCmds (heightsLoop cfg env label sign sp gi si hi idx hs).2
        = hs.flatMap (fun h => cfg.angles.map (fun ang => carMS cfg sp h ang)) := by
  intro hs
  induction hs with
  | nil => intro hi idx; simp [heightsLoop]
  | cons h rest ih =>
    intro hi idx
    simp [heightsLoop, anglesLoop_poseCmds, ih]

/-- The heights loop issues no pose queries. -/
theorem heightsLoop_stateQueries (cfg : Config) (env : Env) (label sign : String)
    (sp : Pos) (gi si : Nat) :
    ∀ (hs : List ℝ) (hi idx : Nat),
      stateQueries (heightsLoop cfg env label sign sp gi si hi idx hs).2 = [] := by
  intro hs
  induction hs with
  | nil => intro hi idx; simp [heightsLoop]
  | cons h rest ih =>
    intro hi idx
    simp [heightsLoop, anglesLoop_stateQueries, ih]

/-- When every sign is found at the position given by `f`, the signs loop
issues the pose commands of every sign in the listed order. -/
theorem signsLoop_poseCmds (cfg : Config) (env : Env) (label : String)
    (f : String → Pos) (hg : ∀ sg, env.getState sg = some (f sg)) :
    ∀ (signs : List String) (gi si : Nat),
      poseCmds (signsLoop cfg env label gi si signs)
        = signs.flatMap (fun sg =>
            cfg.heights.flatMap (fun h =>
              cfg.angles.map (fun ang => carMS cfg (f sg) h ang))) := by
  intro signs
  induction signs with
  | nil => intro gi si; simp [signsLoop]
  | cons sign rest ih =>
    intro gi si
    simp [signsLoop, hg sign, heightsLoop_poseCmds, ih]

/-- When every sign is found at the position given by `f`, the groups loop
issues the pose commands of every group in the listed order. -/
theorem groupsLoop_poseCmds (cfg : Config) (env : Env)
    (f : String → Pos) (hg : ∀ sg, env.getState sg = some (f sg)) :
    ∀ (tgts : List (String × List String)) (gi : Nat),
      poseCmds (groupsLoop cfg env gi tgts)
        = tgts.flatMap (fun g =>
            g.2.flatMap (fun sg =>
              cfg.heights.flatMap (fun h =>
                cfg.angles.map (fun ang => carMS cfg (f sg) h ang)))) := by
  intro tgts
  induction tgts with
  | nil => intro gi; simp [groupsLoop]
  | cons g rest ih =>
    intro gi
    obtain ⟨lb, sgns⟩ := g
    simp [groupsLoop, signsLoop_poseCmds cfg env lb f hg, ih]

/-! ### C9: deterministic sweep order -/

/-- C9: the order of the sweep is fixed and deterministic, exactly as given:
the pose commands of a whole run are the groups in listed order, the objects
in order within each group, the heights as the outer per-object loop and the
angles as the inner loop; no reordering occurs.  (The run is a function of
the configuration and the collaborator responses, so identical inputs give
the identical sequence.) -/
theorem sweep_order_deterministic (cfg : Config) (env : Env) (f : String → Pos)
    (hpre : env.preflightOk = true) (hg : ∀ sg, env.getState sg = some (f sg)) :
    poseCmds (run cfg env)
      = targets.flatMap (fun g =>
          g.2.flatMap (fun sg =>
            cfg.heights.flatMap (fun h =>
              cfg.angles.map (fun ang => carMS cfg (f sg) h ang)))) := by
  rw [run, hpre]
  simp only [if_true]
  exact groupsLoop_poseCmds cfg env f hg targets 0

/-- Witness for C9: the default configuration with every sign at the
origin. -/
theorem sweep_order_deterministic_witness :
    poseCmds (run cfgDefault envAllOk)
      = targets.flatMap (fun g =>
          g.2.flatMap (fun sg =>
            cfgDefault.heights.flatMap (fun h =>
              cfgDefault.angles.map (fun ang =>
                carMS cfgDefault ((fun _ => (⟨0, 0, 0⟩ : Pos)) sg) h ang)))) :=
  sweep_order_deterministic cfgDefault envAllOk (fun _ => ⟨0, 0, 0⟩) rfl
    (fun _ => rfl)

/-! ### C10: single cached pose query per object -/

/-- C10: for a found sign the pose query happens exactly once, before the
height/angle loops: the sign's trace segment is the successful query followed
by its sweep, the sweep itself contains no further pose queries, and every
pose commanded during the sweep is computed from the single queried position
`sp`. -/
theorem object_pose_queried_once (cfg : Config) (env : Env) (label sign : String)
    (sp : Pos) (gi si : Nat) (rest : List String)
    (hg : env.getState sign = some sp) :
    signsLoop cfg env label gi si (sign :: rest)
      = Event.getStateQuery sign true ::
          ((heightsLoop cfg env label sign sp gi si 0 0 cfg.heights).2 ++
            signsLoop cfg env label gi (si + 1) rest) ∧
    stateQueries (heightsLoop cfg env label sign sp gi si 0 0 cfg.heights).2 = [] ∧
    ∀ ms ∈ poseCmds (heightsLoop cfg env label sign sp gi si 0 0 cfg.heights).2,
      ∃ h ∈ cfg.heights, ∃ ang ∈ cfg.angles, ms = carMS cfg sp h ang := by
  refine ⟨by simp [signsLoop, hg], heightsLoop_stateQueries cfg env label sign sp gi si
    cfg.heights 0 0, ?_⟩
  intro ms hms
  rw [heightsLoop_poseCmds cfg env label sign sp gi si cfg.heights 0 0] at hms
  rw [List.mem_flatMap] at hms
  obtain ⟨h, hh, hms⟩ := hms
  rw [List.mem_map] at hms
  obtain ⟨ang, hang, rfl⟩ := hms
  exact ⟨h, hh, ang, hang, rfl⟩

/-- Witness for C10: `STOP_A` found at the origin with the default
configuration. -/
theorem object_pose_queried_once_witness :
    signsLoop cfgDefault envAllOk "STOP" 0 0 ["STOP_A"]
      = Event.getStateQuery "STOP_A" true ::
          ((heightsLoop cfgDefault envAllOk "STOP" "STOP_A" ⟨0, 0, 0⟩ 0 0 0 0
              cfgDefault.heights).2 ++
            signsLoop cfgDefault envAllOk "STOP" 0 1 []) ∧
    stateQueries (heightsLoop cfgDefault envAllOk "STOP" "STOP_A" ⟨0, 0, 0⟩ 0 0 0 0
        cfgDefault.heights).2 = [] := by
  have h := object_pose_queried_once cfgDefault envAllOk "STOP" "STOP_A"
    ⟨0, 0, 0⟩ 0 0 [] rfl
  exact ⟨h.1, h.2.1⟩

end SyntheticCapture
